import Mathlib

/-!
Shallow embedding of `web3/providers/manager.py`: the JSON-RPC request
manager, the transparent manager wrapper, and the send-raw-transaction
interception mixin, together with proofs about their behaviour.

Python values flowing through the manager are modelled by the `Json`
inductive; Python exceptions by the `PyError` inductive; the mutable
per-instance dictionaries (`pending_requests`, `_known_transactions`) by
association structures threaded explicitly through each operation.
-/

set_option autoImplicit false

namespace Web3M

mutual

/-- JSON values, as produced by Python's `json.loads`.  Numbers are
modelled as integers only: every numeric field handled by the manager is
an integer or a hex string, and floating point is outside the model.
Arrays and objects use the companion inductives `JsonItems` and
`JsonFields` (plain lists, spelled out so decidable equality derives). -/
inductive Json where
  | null
  | bool (b : Bool)
  | num (n : Int)
  | str (s : String)
  | arr (elems : JsonItems)
  | obj (fields : JsonFields)
  deriving DecidableEq, Repr

/-- The element list of a JSON array. -/
inductive JsonItems where
  | nil
  | cons (hd : Json) (tl : JsonItems)
  deriving DecidableEq, Repr

/-- The key/value field list of a JSON object, in insertion order, as in
a Python `dict`. -/
inductive JsonFields where
  | nil
  | cons (key : String) (val : Json) (tl : JsonFields)
  deriving DecidableEq, Repr

end

instance : Inhabited Json := ⟨Json.null⟩

/-- Python exceptions raised by the code under verification.
`valueError` carrying the error payload is the RPCError of the spec;
`jsonDecodeError` is its DecodeError; `keyError` is NotFoundError (for
the pending-request table) or a missing dictionary key; `outOfFuel` is a
model artifact of the bounded recursion used for the mixin's
self-dispatch and never occurs for sufficient fuel. -/
inductive PyError where
  | keyError (msg : String)
  | valueError (payload : Json)
  | jsonDecodeError
  | typeError
  | timeoutError
  | indexError
  | outOfFuel
  deriving DecidableEq, Repr

namespace JsonItems

/-- Whether some element satisfies `p`. -/
def any (p : Json → Bool) : JsonItems → Bool
  | .nil => false
  | .cons x xs => p x || any p xs

/-- Append an element. -/
def push (x : Json) : JsonItems → JsonItems
  | .nil => .cons x .nil
  | .cons y ys => .cons y (push x ys)

end JsonItems

namespace JsonFields

/-- Python `dict` lookup: the value bound to `k`, if any. -/
def lookup (k : String) : JsonFields → Option Json
  | .nil => none
  | .cons key val tl => if key == k then some val else lookup k tl

/-- Whether the key `k` is bound (`k in d` for a Python dict). -/
def hasKey (k : String) (d : JsonFields) : Bool := (d.lookup k).isSome

/-- Remove every binding of `k`. -/
def erase (k : String) : JsonFields → JsonFields
  | .nil => .nil
  | .cons key val tl => if key == k then erase k tl else .cons key val (erase k tl)

/-- Append a binding at the end. -/
def push (k : String) (v : Json) : JsonFields → JsonFields
  | .nil => .cons k v .nil
  | .cons key val tl => .cons key val (push k v tl)

/-- Python `dict` insertion while an object literal is built: a repeated
key overwrites the previous binding. -/
def insert (d : JsonFields) (k : String) (v : Json) : JsonFields :=
  (d.erase k).push k v

/-- Python `dict.setdefault(k, v)`: bind `k` to `v` only if `k` is
absent; the dictionary is otherwise unchanged. -/
def setdefault (d : JsonFields) (k : String) (v : Json) : JsonFields :=
  if d.hasKey k then d else d.push k v

/-- Build a field list from a plain list of pairs (test convenience). -/
def ofList : List (String × Json) → JsonFields
  | [] => .nil
  | (k, v) :: tl => .cons k v (ofList tl)

end JsonFields

/-- The character `{` (written by code point to keep it out of string
literals). -/
def lbrace : Char := Char.ofNat 123

/-- The character `}` (written by code point). -/
def rbrace : Char := Char.ofNat 125

def isWs (c : Char) : Bool :=
  c = ' ' || c = '\t' || c = '\n' || c = '\r'

def skipWs : List Char → List Char
  | [] => []
  | c :: cs => if isWs c then skipWs cs else c :: cs

def hexDigitVal (c : Char) : Option Nat :=
  if '0' ≤ c ∧ c ≤ '9' then some (c.toNat - '0'.toNat)
  else if 'a' ≤ c ∧ c ≤ 'f' then some (c.toNat - 'a'.toNat + 10)
  else if 'A' ≤ c ∧ c ≤ 'F' then some (c.toNat - 'A'.toNat + 10)
  else none

/-- Body of a JSON string literal, after the opening quote; returns the
decoded string and the input after the closing quote. -/
def parseStringBody (acc : List Char) : List Char → Option (String × List Char)
  | [] => none
  | c :: cs =>
    if c = '"' then some (String.mk acc.reverse, cs)
    else if c = '\\' then
      match cs with
      | [] => none
      | e :: cs2 =>
        if e = '"' || e = '\\' || e = '/' then parseStringBody (e :: acc) cs2
        else if e = 'n' then parseStringBody ('\n' :: acc) cs2
        else if e = 't' then parseStringBody ('\t' :: acc) cs2
        else if e = 'r' then parseStringBody ('\r' :: acc) cs2
        else if e = 'b' then parseStringBody (Char.ofNat 8 :: acc) cs2
        else if e = 'f' then parseStringBody (Char.ofNat 12 :: acc) cs2
        else if e = 'u' then
          match cs2 with
          | h1 :: h2 :: h3 :: h4 :: cs3 =>
            match hexDigitVal h1, hexDigitVal h2, hexDigitVal h3, hexDigitVal h4 with
            | some a, some b, some c3, some d =>
              parseStringBody (Char.ofNat (((a * 16 + b) * 16 + c3) * 16 + d) :: acc) cs3
            | _, _, _, _ => none
          | _ => none
        else none
    else parseStringBody (c :: acc) cs

/-- Nonnegative decimal literal: at least one digit, maximal run.
A following `.`, `e` or `E` (a float literal) is outside the model. -/
def parseNatLit (cs : List Char) : Option (Nat × List Char) :=
  let digits := cs.takeWhile Char.isDigit
  let rest := cs.dropWhile Char.isDigit
  if digits.isEmpty then none
  else if rest.head? = some '.' || rest.head? = some 'e' || rest.head? = some 'E' then none
  else some (digits.foldl (fun n c => n * 10 + (c.toNat - '0'.toNat)) 0, rest)

mutual

/-- One JSON value.  `fuel` bounds recursion depth; `jsonLoads` supplies
enough for any input. -/
def parseValue : Nat → List Char → Option (Json × List Char)
  | 0, _ => none
  | fuel + 1, cs0 =>
    match skipWs cs0 with
    | [] => none
    | c :: rest =>
      if c = '"' then
        match parseStringBody [] rest with
        | some (s, r) => some (Json.str s, r)
        | none => none
      else if c = lbrace then
        match skipWs rest with
        | c2 :: rest2 =>
          if c2 = rbrace then some (Json.obj .nil, rest2)
          else parseMembers fuel .nil (c2 :: rest2)
        | [] => none
      else if c = '[' then
        match skipWs rest with
        | c2 :: rest2 =>
          if c2 = ']' then some (Json.arr .nil, rest2)
          else parseItems fuel .nil (c2 :: rest2)
        | [] => none
      else if c = 't' then
        match rest with
        | 'r' :: 'u' :: 'e' :: r => some (Json.bool true, r)
        | _ => none
      else if c = 'f' then
        match rest with
        | 'a' :: 'l' :: 's' :: 'e' :: r => some (Json.bool false, r)
        | _ => none
      else if c = 'n' then
        match rest with
        | 'u' :: 'l' :: 'l' :: r => some (Json.null, r)
        | _ => none
      else if c = '-' then
        match parseNatLit rest with
        | some (n, r) => some (Json.num (-(n : Int)), r)
        | none => none
      else if c.isDigit then
        match parseNatLit (c :: rest) with
        | some (n, r) => some (Json.num (n : Int), r)
        | none => none
      else none

/-- Members of a JSON object, positioned at the start of a key. -/
def parseMembers : Nat → JsonFields → List Char → Option (Json × List Char)
  | 0, _, _ => none
  | fuel + 1, acc, cs0 =>
    match skipWs cs0 with
    | '"' :: rest =>
      match parseStringBody [] rest with
      | some (k, r1) =>
        match skipWs r1 with
        | ':' :: r2 =>
          match parseValue fuel r2 with
          | some (v, r3) =>
            match skipWs r3 with
            | ',' :: r4 => parseMembers fuel (acc.insert k v) r4
            | c5 :: r5 =>
              if c5 = rbrace then some (Json.obj (acc.insert k v), r5) else none
            | [] => none
          | none => none
        | _ => none
      | none => none
    | _ => none

/-- Items of a JSON array, positioned at the start of a value. -/
def parseItems : Nat → JsonItems → List Char → Option (Json × List Char)
  | 0, _, _ => none
  | fuel + 1, acc, cs0 =>
    match parseValue fuel cs0 with
    | some (v, r1) =>
      match skipWs r1 with
      | ',' :: r2 => parseItems fuel (acc.push v) r2
      | ']' :: r2 => some (Json.arr (acc.push v), r2)
      | _ => none
    | none => none

end

/-- Python `json.loads` on a text document: one JSON value followed by
optional whitespace; anything else (including trailing data, as for
`json.loads("0x2a")`) raises a decode error, modelled as `none`. -/
def jsonLoads (s : String) : Option Json :=
  match parseValue (s.length + 2) s.data with
  | some (v, rest) =>
    match skipWs rest with
    | [] => some v
    | _ :: _ => none
  | none => none

/-- Whether `needle` occurs as a substring of `hay` (`needle` assumed
nonempty; only ever used with the literal keys `"error"`/`"result"`). -/
def strContainsSubstr (hay needle : String) : Bool :=
  (hay.splitOn needle).length ≥ 2

/-- Python's `key in value` for a decoded JSON value: key membership for
a dict, element membership for a list, substring for a string, and
`TypeError` otherwise. -/
def pyContains (j : Json) (key : String) : Except PyError Bool :=
  match j with
  | .obj fields => .ok (fields.hasKey key)
  | .arr elems => .ok (elems.any (fun e => e == Json.str key))
  | .str s => .ok (strContainsSubstr s key)
  | _ => .error .typeError

/-- Python's `value[key]` for a decoded JSON value: dict lookup raising
`KeyError` when absent; any non-dict raises `TypeError` for a string
subscript. -/
def pyGetItem (j : Json) (key : String) : Except PyError Json :=
  match j with
  | .obj fields =>
    match fields.lookup key with
    | some v => .ok v
    | none => .error (.keyError key)
  | _ => .error .typeError

/-- Python `json.loads` applied to an arbitrary already-decoded value
(as `receive_blocking` does to the spawned call's result): a `str` is
parsed as a JSON document, everything else raises `TypeError`. -/
def pyJsonLoads (j : Json) : Except PyError Json :=
  match j with
  | .str s =>
    match jsonLoads s with
    | some v => .ok v
    | none => .error .jsonDecodeError
  | _ => .error .typeError

/-- Modelled from the spec: `web3.utils.string.force_text` is outside
`src/`; raw provider responses are modelled as text already, so the
bytes-to-text decode is the identity. -/
def force_text (s : String) : String := s

/-- Association-list lookup (a Python `dict` read), used for the two
mutable tables. -/
def alookup {α β : Type} [BEq α] (a : α) : List (α × β) → Option β
  | [] => none
  | (k, b) :: tl => if k == a then some b else alookup a tl

/-!  ## RequestManager  -/

/-- The external transport (spec §6): `make_request(method, params)`
returns the raw response body. -/
structure Provider where
  make_request : String → List Json → String

namespace RequestManager

/-- `RequestManager.request_blocking`: make the request through the
provider, decode the body as JSON, raise `ValueError` (RPCError)
carrying the `error` payload if one is present, and return the `result`
field otherwise. -/
def request_blocking (provider : Provider) (method : String) (params : List Json) :
    Except PyError Json :=
  let response_raw := provider.make_request method params
  match jsonLoads (force_text response_raw) with
  | none => .error .jsonDecodeError
  | some response =>
    match pyContains response "error" with
    | .error e => .error e
    | .ok true =>
      match pyGetItem response "error" with
      | .ok payload => .error (.valueError payload)
      | .error e => .error e
    | .ok false => pyGetItem response "result"

/-- The `pending_requests` table: request id → the spawned greenlet,
represented by its eventual outcome (the value returned, or exception
raised, by the spawned `request_blocking` call). -/
abbrev Pending : Type := List (Nat × Except PyError Json)

/-- `RequestManager.request_async`: spawn `request_blocking` as a task,
store it under a fresh request id, return the id without blocking.  The
fresh uuid4 is modelled as an externally supplied `request_id`. -/
def request_async (provider : Provider) (method : String) (params : List Json)
    (request_id : Nat) (pending : Pending) : Nat × Pending :=
  (request_id, (request_id, request_blocking provider method params) :: pending)

/-- Removal of a request id from the pending table (`dict.pop`). -/
def pendingErase (pending : Pending) (request_id : Nat) : Pending :=
  pending.filter (fun kv => !(kv.1 == request_id))

/-- `RequestManager.receive_blocking`: pop the task for `request_id`
(`KeyError` if absent), wait for it bounded by the optional timeout,
then run `json.loads` on the value the task completed with and apply the
error/result envelope extraction.  `timed_out` tells whether the started
`gevent.Timeout` fires before the task's result is available (always
`false` when the source's `timeout` argument is `None`); real time is
otherwise outside the model. -/
def receive_blocking (pending : Pending) (request_id : Nat) (timed_out : Bool) :
    (Except PyError Json) × Pending :=
  match alookup request_id pending with
  | none =>
    (.error (.keyError ("Request for id:" ++ toString request_id ++ " not found")), pending)
  | some request =>
    let pending1 := pendingErase pending request_id
    if timed_out then (.error .timeoutError, pending1)
    else
      match request with
      | .error e => (.error e, pending1)
      | .ok response_raw =>
        match pyJsonLoads response_raw with
        | .error e => (.error e, pending1)
        | .ok response =>
          match pyContains response "error" with
          | .error e => (.error e, pending1)
          | .ok true =>
            match pyGetItem response "error" with
            | .ok payload => (.error (.valueError payload), pending1)
            | .error e => (.error e, pending1)
          | .ok false => (pyGetItem response "result", pending1)

end RequestManager

/-!  ## BaseSendRawTransactionMixin  -/

/-- Modelled from the spec: `web3.utils.encoding.to_decimal` is outside
`src/`; numeric RPC fields arrive as `0x`-prefixed hexadecimal strings
(spec §6; §8: a count of `"0x2a"` is read as 42) or integers. -/
def to_decimal (j : Json) : Except PyError Int :=
  match j with
  | .num n => .ok n
  | .str s =>
    let digits :=
      match s.data with
      | '0' :: 'x' :: tl => tl
      | other => other
    if digits.isEmpty then .error .typeError
    else
      match digits.foldl
        (fun acc c => match acc, hexDigitVal c with
          | some n, some d => some (n * 16 + d)
          | _, _ => none) (some 0) with
      | some n => .ok (n : Int)
      | none => .error .typeError
  | _ => .error .typeError

/-- Modelled from the spec: `web3.utils.encoding.encode_hex` is outside
`src/`; byte strings are transmitted as `0x`-prefixed lowercase
hexadecimal (spec §6). -/
def encode_hex (bs : List Nat) : String :=
  "0x" ++ String.join (bs.map (fun b =>
    String.mk [Nat.digitChar (b / 16 % 16), Nat.digitChar (b % 16)]))

/-- Python's `hex` builtin on a natural number, as in the `gas` default
`hex(90000) = "0x15f90"`. -/
def pyHex (n : Nat) : String := "0x" ++ String.mk (Nat.toDigits 16 n)

/-- The `_known_transactions` state: `collections.defaultdict(set)`
mapping an address to the set of tracked transaction hashes, modelled as
an association list whose absent keys read as the empty set. -/
abbrev Known : Type := List (Json × List Json)

/-- Read `_known_transactions[addr]` (a missing key reads as the empty
set, as for a `defaultdict`). -/
def knownGet (kt : Known) (addr : Json) : List Json :=
  (alookup addr kt).getD []

/-- Bind `addr` to the hash set `v`. -/
def knownSet (kt : Known) (addr : Json) (v : List Json) : Known :=
  (addr, v) :: kt.filter (fun kv => !(kv.1 == addr))

/-- `self._known_transactions[addr].discard(txn_hash)`. -/
def knownDiscard (kt : Known) (addr : Json) (txn_hash : Json) : Known :=
  knownSet kt addr ((knownGet kt addr).filter (fun x => !(x == txn_hash)))

/-- `self._known_transactions[addr].add(txn_hash)`. -/
def knownAdd (kt : Known) (addr : Json) (txn_hash : Json) : Known :=
  let cur := knownGet kt addr
  knownSet kt addr (if cur.any (fun x => x == txn_hash) then cur else cur ++ [txn_hash])

/-- The environment a `BaseSendRawTransactionMixin` instance runs in:
`request_blocking` is the wrapped manager's request dispatch (what the
`super()` call of the `ManagerWrapper` chain forwards to), and
`sign_and_serialize_transaction` is the signing pipeline of source lines
137–145 (`serialize_transaction`, the abstract
`get_transaction_signature`, `add_signature_to_transaction`,
`rlp.encode` — external utilities plus a subclass-supplied signer,
modelled as one abstract function from the full transaction record to
the signed raw bytes). -/
structure WrappedManager where
  request_blocking : String → List Json → Except PyError Json
  sign_and_serialize_transaction : JsonFields → List Nat

namespace BaseSendRawTransactionMixin

/-- Resolving one tracked hash (source lines 113–116): fetch the
transaction via `eth_getTransactionByHash` and read its `nonce` as a
decimal.  The dynamic `self.request_blocking` call is not intercepted
for this method (it is neither `eth_sendTransaction` nor in
`TXN_SENDING_METHODS`), so it reduces to the wrapped manager's
`request_blocking`. -/
def txn_nonce_of (w : WrappedManager) (txn_hash : Json) : Except PyError Int :=
  match w.request_blocking "eth_getTransactionByHash" [txn_hash] with
  | .error e => .error e
  | .ok txn =>
    match pyGetItem txn "nonce" with
    | .error e => .error e
    | .ok v => to_decimal v

/-- The loop of `_get_nonces_and_cleanup` over the copied hash tuple:
resolve each hash; discard it from the tracked set when its nonce is ≤
the chain nonce, otherwise yield the nonce.  The generator is consumed
in full by the `max(…, *generator)` unpacking in `get_nonce`, so the
yields are collected into a list; an exception mid-way leaves the
discards made so far in place, as in the source. -/
def get_nonces_and_cleanup_loop (w : WrappedManager) (addr : Json) (chain_nonce : Int) :
    List Json → Known → (Except PyError (List Int)) × Known
  | [], kt => (.ok [], kt)
  | txn_hash :: rest, kt =>
    match txn_nonce_of w txn_hash with
    | .error e => (.error e, kt)
    | .ok txn_nonce =>
      if txn_nonce ≤ chain_nonce then
        get_nonces_and_cleanup_loop w addr chain_nonce rest (knownDiscard kt addr txn_hash)
      else
        match get_nonces_and_cleanup_loop w addr chain_nonce rest kt with
        | (.ok more, kt1) => (.ok (txn_nonce :: more), kt1)
        | (.error e, kt1) => (.error e, kt1)

/-- `_get_nonces_and_cleanup(addr, chain_nonce)`: iterate over a copy
(`tuple(...)`) of the currently known transaction hashes for `addr`. -/
def get_nonces_and_cleanup (w : WrappedManager) (kt : Known) (addr : Json)
    (chain_nonce : Int) : (Except PyError (List Int)) × Known :=
  let all_known_txn_hashes := knownGet kt addr
  get_nonces_and_cleanup_loop w addr chain_nonce all_known_txn_hashes kt

/-- `get_chain_nonce(addr)`: the pending transaction count reported by
the chain, as a decimal integer. -/
def get_chain_nonce (w : WrappedManager) (addr : Json) : Except PyError Int :=
  match w.request_blocking "eth_getTransactionCount" [addr, .str "pending"] with
  | .error e => .error e
  | .ok v => to_decimal v

/-- `get_nonce(addr)`: `max(0, chain_nonce, *tracked_txn_nonces)`, where
unpacking the generator also performs the tracked-set cleanup. -/
def get_nonce (w : WrappedManager) (kt : Known) (addr : Json) :
    (Except PyError Int) × Known :=
  match get_chain_nonce w addr with
  | .error e => (.error e, kt)
  | .ok chain_nonce =>
    match get_nonces_and_cleanup w kt addr chain_nonce with
    | (.error e, kt1) => (.error e, kt1)
    | (.ok tracked_txn_nonces, kt1) =>
      (.ok (List.foldl max 0 (chain_nonce :: tracked_txn_nonces)), kt1)

/-- `construct_full_transaction(base_transaction)`: copy the base record
and fill each missing field with its default.  Python evaluates
`setdefault`'s second argument eagerly, so `get_nonce` (with its pruning
side effect) and the `eth_gasPrice` request run unconditionally. -/
def construct_full_transaction (w : WrappedManager) (kt : Known)
    (base_transaction : JsonFields) : (Except PyError JsonFields) × Known :=
  match base_transaction.lookup "from" with
  | none => (.error (.keyError "from"), kt)
  | some txn_from =>
    let full_txn := base_transaction
    match get_nonce w kt txn_from with
    | (.error e, kt1) => (.error e, kt1)
    | (.ok nonce, kt1) =>
      let full_txn := full_txn.setdefault "nonce" (.num nonce)
      match w.request_blocking "eth_gasPrice" [] with
      | .error e => (.error e, kt1)
      | .ok gas_price =>
        let full_txn := full_txn.setdefault "gasPrice" gas_price
        let full_txn := full_txn.setdefault "gas" (.str (pyHex 90000))
        let full_txn := full_txn.setdefault "value" (.str "0x0")
        let full_txn := full_txn.setdefault "to" (.str "")
        let full_txn := full_txn.setdefault "data" (.str "")
        (.ok full_txn, kt1)

/-- The fixed set of transaction-sending methods. -/
def TXN_SENDING_METHODS : List String :=
  ["eth_sendTransaction", "eth_sendRawTransaction",
   "personal_signAndSendTransaction", "personal_sendTransaction"]

/-- The mixin's `request_blocking` override.  `eth_sendTransaction` is
turned into a signed `eth_sendRawTransaction` re-dispatch through
`self.request_blocking`; every other method is forwarded to the wrapped
manager, and a result of a transaction-sending method is looked up via
`eth_getTransactionByHash` (again through `self.request_blocking`) and
recorded under its reported `from` address.  `fuel` bounds the
self-dispatch depth (3 suffices for every call the source can make);
the state is returned even when an exception propagates, since Python
exceptions roll nothing back. -/
def request_blocking (w : WrappedManager) : Nat → String → List Json → Known →
    (Except PyError Json) × Known
  | 0, _, _, kt => (.error .outOfFuel, kt)
  | fuel + 1, method, params, kt =>
    if method == "eth_sendTransaction" then
      match params with
      | [] => (.error .indexError, kt)
      | base_j :: _ =>
        match base_j with
        | .obj base_transaction =>
          match construct_full_transaction w kt base_transaction with
          | (.error e, kt1) => (.error e, kt1)
          | (.ok full_transaction, kt1) =>
            let raw_transaction_bytes := w.sign_and_serialize_transaction full_transaction
            let raw_transaction_bytes_as_hex := encode_hex raw_transaction_bytes
            request_blocking w fuel "eth_sendRawTransaction"
              [.str raw_transaction_bytes_as_hex] kt1
        | _ => (.error .typeError, kt)
    else
      match w.request_blocking method params with
      | .error e => (.error e, kt)
      | .ok result =>
        if TXN_SENDING_METHODS.contains method then
          match request_blocking w fuel "eth_getTransactionByHash" [result] kt with
          | (.error e, kt1) => (.error e, kt1)
          | (.ok txn, kt1) =>
            match pyGetItem txn "from" with
            | .error e => (.error e, kt1)
            | .ok txn_from => (.ok result, knownAdd kt1 txn_from result)
        else (.ok result, kt)

end BaseSendRawTransactionMixin

/-!  ## Helper lemmas  -/

theorem JsonFields.lookup_push_of_some :
    ∀ {d : JsonFields} {k k' : String} {v w : Json},
      d.lookup k' = some w → (d.push k v).lookup k' = some w
  | .nil, _, _, _, _, h => by simp [JsonFields.lookup] at h
  | .cons key val tl, k, k', v, w, h => by
    simp only [JsonFields.push, JsonFields.lookup] at h ⊢
    by_cases hk : (key == k') = true
    · simpa [hk] using h
    · have hkf : (key == k') = false := by simpa using hk
      rw [hkf] at h ⊢
      simp only [Bool.false_eq_true, if_false] at h ⊢
      exact JsonFields.lookup_push_of_some h

theorem JsonFields.lookup_push_self :
    ∀ {d : JsonFields} {k : String} {v : Json},
      d.lookup k = none → (d.push k v).lookup k = some v
  | .nil, k, v, _ => by simp [JsonFields.push, JsonFields.lookup]
  | .cons key val tl, k, v, h => by
    simp only [JsonFields.push, JsonFields.lookup] at h ⊢
    by_cases hk : (key == k) = true
    · simp [hk] at h
    · have hkf : (key == k) = false := by simpa using hk
      rw [hkf] at h ⊢
      simp only [Bool.false_eq_true, if_false] at h ⊢
      exact JsonFields.lookup_push_self h

theorem JsonFields.lookup_setdefault_of_some {d : JsonFields} {k k' : String} {v w : Json}
    (h : d.lookup k' = some w) : (d.setdefault k v).lookup k' = some w := by
  unfold JsonFields.setdefault
  by_cases hk : d.hasKey k = true
  · simpa [hk] using h
  · simp only [hk, Bool.false_eq_true, if_false]
    exact JsonFields.lookup_push_of_some h

theorem JsonFields.lookup_setdefault_of_none {d : JsonFields} {k : String} {v : Json}
    (h : d.lookup k = none) : (d.setdefault k v).lookup k = some v := by
  unfold JsonFields.setdefault JsonFields.hasKey
  simp only [h, Option.isSome_none, Bool.false_eq_true, if_false]
  exact JsonFields.lookup_push_self h

theorem JsonFields.lookup_setdefault_isSome_self (d : JsonFields) (k : String) (v : Json) :
    ((d.setdefault k v).lookup k).isSome = true := by
  cases h : d.lookup k with
  | none => simp [JsonFields.lookup_setdefault_of_none h]
  | some w => simp [JsonFields.lookup_setdefault_of_some h]

theorem JsonFields.lookup_setdefault_isSome {d : JsonFields} {k' : String}
    (k : String) (v : Json) (h : (d.lookup k').isSome = true) :
    ((d.setdefault k v).lookup k').isSome = true := by
  cases hl : d.lookup k' with
  | none => rw [hl] at h; simp at h
  | some w => simp [JsonFields.lookup_setdefault_of_some hl]

theorem alookup_filter_ne {α β : Type} [BEq α] [LawfulBEq α]
    (l : List (α × β)) (a a' : α) (h : ¬ a' = a) :
    alookup a' (l.filter (fun kv => !(kv.1 == a))) = alookup a' l := by
  induction l with
  | nil => rfl
  | cons kv tl ih =>
    obtain ⟨k, b⟩ := kv
    by_cases hk : (k == a) = true
    · have hka : k = a := eq_of_beq hk
      have hne : (k == a') = false := by
        rw [hka]; exact beq_eq_false_iff_ne.mpr (fun hc => h hc.symm)
      simp only [List.filter_cons, hk, Bool.not_true, Bool.false_eq_true, if_false]
      rw [ih, alookup, hne]
      simp
    · have hkf : (k == a) = false := by simpa using hk
      simp only [List.filter_cons, hkf, Bool.not_false, if_true]
      rw [alookup, alookup]
      by_cases hq : (k == a') = true
      · rw [hq]; simp
      · have hqf : (k == a') = false := by simpa using hq
        rw [hqf]
        simp only [Bool.false_eq_true, if_false]
        exact ih

theorem alookup_filter_self {α β : Type} [BEq α] [LawfulBEq α]
    (l : List (α × β)) (a : α) :
    alookup a (l.filter (fun kv => !(kv.1 == a))) = none := by
  induction l with
  | nil => rfl
  | cons kv tl ih =>
    obtain ⟨k, b⟩ := kv
    by_cases hk : (k == a) = true
    · simp only [List.filter_cons, hk, Bool.not_true, Bool.false_eq_true, if_false]
      exact ih
    · have hkf : (k == a) = false := by simpa using hk
      simp only [List.filter_cons, hkf, Bool.not_false, if_true]
      rw [alookup, hkf]
      simp only [Bool.false_eq_true, if_false]
      exact ih

theorem knownGet_knownSet_self (kt : Known) (a : Json) (v : List Json) :
    knownGet (knownSet kt a v) a = v := by
  simp [knownGet, knownSet, alookup]

theorem knownGet_knownSet_ne (kt : Known) (a a' : Json) (v : List Json) (h : ¬ a' = a) :
    knownGet (knownSet kt a v) a' = knownGet kt a' := by
  unfold knownGet knownSet
  rw [alookup]
  have hne : (a == a') = false := beq_eq_false_iff_ne.mpr (fun hc => h hc.symm)
  rw [hne]
  simp only [Bool.false_eq_true, if_false]
  rw [alookup_filter_ne kt a a' h]

theorem mem_knownGet_knownDiscard {kt : Known} {a txn_hash x : Json} (a' : Json)
    (h : x ∈ knownGet (knownDiscard kt a txn_hash) a') : x ∈ knownGet kt a' := by
  unfold knownDiscard at h
  by_cases ha : a' = a
  · subst ha
    rw [knownGet_knownSet_self] at h
    exact (List.mem_filter.mp h).1
  · rwa [knownGet_knownSet_ne _ _ _ _ ha] at h

theorem le_foldl_max (l : List Int) : ∀ (a : Int), a ≤ List.foldl max a l := by
  induction l with
  | nil => intro a; exact le_refl a
  | cons x xs ih =>
    intro a
    rw [List.foldl_cons]
    exact le_trans (le_max_left a x) (ih (max a x))

theorem mem_le_foldl_max (l : List Int) : ∀ (a x : Int), x ∈ l → x ≤ List.foldl max a l := by
  induction l with
  | nil => intro a x hx; cases hx
  | cons y ys ih =>
    intro a x hx
    rw [List.foldl_cons]
    rcases List.mem_cons.mp hx with h | h
    · subst h; exact le_trans (le_max_right a x) (le_foldl_max ys (max a x))
    · exact ih _ _ h

theorem foldl_max_filter (c : Int) (l : List Int) :
    ∀ (a : Int), c ≤ a →
      List.foldl max a (l.filter (fun v => decide (c < v))) = List.foldl max a l := by
  induction l with
  | nil => intro a _; rfl
  | cons x xs ih =>
    intro a ha
    by_cases hx : c < x
    · rw [List.filter_cons, if_pos (by simpa using hx), List.foldl_cons, List.foldl_cons]
      exact ih (max a x) (le_trans ha (le_max_left a x))
    · rw [List.filter_cons, if_neg (by simpa using hx), List.foldl_cons]
      have hax : max a x = a := max_eq_left (le_trans (not_lt.mp hx) ha)
      rw [hax]
      exact ih a ha

theorem filterMap_if_gt (f : Json → Int) (c : Int) (l : List Json) :
    l.filterMap (fun h => if c < f h then some (f h) else none) =
      (l.map f).filter (fun v => decide (c < v)) := by
  induction l with
  | nil => rfl
  | cons x xs ih =>
    rw [List.filterMap_cons, List.map_cons, List.filter_cons]
    by_cases hx : c < f x
    · rw [if_pos hx, if_pos (by simpa using hx), ih]
    · rw [if_neg hx, if_neg (by simpa using hx), ih]

namespace BaseSendRawTransactionMixin

theorem cleanup_loop_ok (w : WrappedManager) (addr : Json) (chain : Int) (f : Json → Int)
    (hashes : List Json) :
    ∀ (kt : Known), (∀ h ∈ hashes, txn_nonce_of w h = .ok (f h)) →
      (get_nonces_and_cleanup_loop w addr chain hashes kt).1 =
        .ok (hashes.filterMap (fun h => if chain < f h then some (f h) else none)) := by
  induction hashes with
  | nil => intro kt _; rfl
  | cons txn_hash rest ih =>
    intro kt hres
    have h0 : txn_nonce_of w txn_hash = .ok (f txn_hash) := hres _ (List.mem_cons_self _ _)
    have hrest : ∀ h ∈ rest, txn_nonce_of w h = .ok (f h) :=
      fun h hm => hres _ (List.mem_cons_of_mem _ hm)
    simp only [get_nonces_and_cleanup_loop, h0, List.filterMap_cons]
    by_cases hle : f txn_hash ≤ chain
    · simp only [if_pos hle, if_neg (not_lt.mpr hle)]
      exact ih _ hrest
    · simp only [if_neg hle, if_pos (lt_of_not_le hle)]
      rcases hl : get_nonces_and_cleanup_loop w addr chain rest kt with ⟨v, st⟩
      have hv : v = .ok (rest.filterMap (fun h => if chain < f h then some (f h) else none)) := by
        have := ih kt hrest
        rwa [hl] at this
      subst hv
      simp [hl]

theorem cleanup_loop_mem_gt (w : WrappedManager) (addr : Json) (chain : Int) (f : Json → Int)
    (hashes : List Json) :
    ∀ (kt : Known),
      (∀ h ∈ hashes, txn_nonce_of w h = .ok (f h)) →
      (∀ x ∈ knownGet kt addr, f x ≤ chain → x ∈ hashes) →
      ∀ x ∈ knownGet (get_nonces_and_cleanup_loop w addr chain hashes kt).2 addr,
        chain < f x := by
  induction hashes with
  | nil =>
    intro kt _ hinv x hx
    by_cases hfx : f x ≤ chain
    · exact absurd (hinv x hx hfx) (List.not_mem_nil x)
    · exact lt_of_not_le hfx
  | cons txn_hash rest ih =>
    intro kt hres hinv x hx
    have h0 : txn_nonce_of w txn_hash = .ok (f txn_hash) := hres _ (List.mem_cons_self _ _)
    have hrest : ∀ h ∈ rest, txn_nonce_of w h = .ok (f h) :=
      fun h hm => hres _ (List.mem_cons_of_mem _ hm)
    simp only [get_nonces_and_cleanup_loop, h0] at hx
    by_cases hle : f txn_hash ≤ chain
    · rw [if_pos hle] at hx
      refine ih _ hrest ?_ x hx
      intro y hy hfy
      unfold knownDiscard at hy
      rw [knownGet_knownSet_self] at hy
      have hmem := (List.mem_filter.mp hy).1
      have hne : ¬(y == txn_hash) = true := by
        have := (List.mem_filter.mp hy).2
        simpa using this
      have : y ∈ txn_hash :: rest := hinv y hmem hfy
      rcases List.mem_cons.mp this with heq | hm
      · exact absurd (by rw [heq]; exact beq_self_eq_true txn_hash) hne
      · exact hm
    · rw [if_neg hle] at hx
      rcases hl : get_nonces_and_cleanup_loop w addr chain rest kt with ⟨v, st⟩
      rw [hl] at hx
      have hx2 : x ∈ knownGet (get_nonces_and_cleanup_loop w addr chain rest kt).2 addr := by
        rw [hl]
        cases v <;> simpa using hx
      refine ih _ hrest ?_ x hx2
      intro y hy hfy
      have : y ∈ txn_hash :: rest := hinv y hy hfy
      rcases List.mem_cons.mp this with heq | hm
      · exact absurd (heq ▸ hfy) hle
      · exact hm

theorem cleanup_loop_subset (w : WrappedManager) (addr : Json) (chain : Int)
    (hashes : List Json) :
    ∀ (kt : Known) (a x : Json),
      x ∈ knownGet (get_nonces_and_cleanup_loop w addr chain hashes kt).2 a →
      x ∈ knownGet kt a := by
  induction hashes with
  | nil => intro kt a x hx; exact hx
  | cons txn_hash rest ih =>
    intro kt a x hx
    cases h0 : txn_nonce_of w txn_hash with
    | error e => simp only [get_nonces_and_cleanup_loop, h0] at hx; exact hx
    | ok n =>
      simp only [get_nonces_and_cleanup_loop, h0] at hx
      by_cases hle : n ≤ chain
      · rw [if_pos hle] at hx
        exact mem_knownGet_knownDiscard _ (ih _ _ _ hx)
      · rw [if_neg hle] at hx
        rcases hl : get_nonces_and_cleanup_loop w addr chain rest kt with ⟨v, st⟩
        rw [hl] at hx
        refine ih kt a x ?_
        rw [hl]
        cases v <;> simpa using hx

theorem get_nonce_subset (w : WrappedManager) (kt : Known) (addr : Json) (a x : Json)
    (hx : x ∈ knownGet (get_nonce w kt addr).2 a) : x ∈ knownGet kt a := by
  simp only [get_nonce, get_nonces_and_cleanup] at hx
  cases hc : get_chain_nonce w addr with
  | error e => simp only [hc] at hx; exact hx
  | ok chain =>
    simp only [hc] at hx
    rcases hl : get_nonces_and_cleanup_loop w addr chain (knownGet kt addr) kt with ⟨v, st⟩
    simp only [hl] at hx
    refine cleanup_loop_subset w addr chain (knownGet kt addr) kt a x ?_
    rw [hl]
    cases v <;> simpa using hx

end BaseSendRawTransactionMixin

/-!  ## Concrete fixtures used by witnesses and counterexamples  -/

/-- A wrapped manager whose chain reports pending count `0x5`, whose
transaction lookups resolve the hashes `0xh3`/`0xh6`/`0xh8`/`0xhash` to
nonces 3/6/8/8 under the address `0xAA`, and which accepts raw
broadcasts with the hash `0xhash`. -/
def wChain5 : WrappedManager where
  request_blocking := fun method params =>
    if method == "eth_getTransactionCount" then .ok (.str "0x5")
    else if method == "eth_getTransactionByHash" then
      match params with
      | [Json.str "0xh6"] =>
        .ok (.obj (.cons "from" (.str "0xAA") (.cons "nonce" (.str "0x6") .nil)))
      | [Json.str "0xh8"] =>
        .ok (.obj (.cons "from" (.str "0xAA") (.cons "nonce" (.str "0x8") .nil)))
      | [Json.str "0xh3"] =>
        .ok (.obj (.cons "from" (.str "0xAA") (.cons "nonce" (.str "0x3") .nil)))
      | [Json.str "0xhash"] =>
        .ok (.obj (.cons "from" (.str "0xAA") (.cons "nonce" (.str "0x8") .nil)))
      | _ => .error .typeError
    else if method == "eth_gasPrice" then .ok (.str "0x1")
    else if method == "eth_sendRawTransaction" then .ok (.str "0xhash")
    else .error .typeError
  sign_and_serialize_transaction := fun _ => [1, 2]

/-- The nonce resolution function realised by `wChain5`. -/
def fChain5 : Json → Int := fun h =>
  if h == Json.str "0xh6" then 6 else if h == Json.str "0xh3" then 3 else 8

/-- Tracked hashes resolving to the nonce multiset of sixes and eights. -/
def ktC1 : Known := [(.str "0xAA", [.str "0xh6", .str "0xh8"])]

/-- One tracked unconfirmed hash of nonce 8. -/
def ktC2 : Known := [(.str "0xAA", [.str "0xh8"])]

/-- Tracked hashes of nonces 3 (confirmed) and 8 (unconfirmed). -/
def ktC5 : Known := [(.str "0xAA", [.str "0xh3", .str "0xh8"])]

/-- Like `wChain5`, but every raw broadcast raises `ValueError("boom")`. -/
def wFail : WrappedManager where
  request_blocking := fun method params =>
    if method == "eth_sendRawTransaction" then .error (.valueError (.str "boom"))
    else if method == "eth_getTransactionCount" then .ok (.str "0x5")
    else if method == "eth_getTransactionByHash" then
      match params with
      | [Json.str "0xh3"] =>
        .ok (.obj (.cons "from" (.str "0xAA") (.cons "nonce" (.str "0x3") .nil)))
      | _ => .error .typeError
    else if method == "eth_gasPrice" then .ok (.str "0x1")
    else .error .typeError
  sign_and_serialize_transaction := fun _ => [1, 2]

/-- One tracked hash of nonce 3, already confirmed relative to chain
nonce 5. -/
def ktC9 : Known := [(.str "0xAA", [.str "0xh3"])]

/-!  ## Claims about the nonce algorithm (C1, C2, C5)  -/

namespace BaseSendRawTransactionMixin

/-- The resolved value of `get_nonce`: when the chain nonce resolves to
`chain` and every tracked hash under `addr` resolves to its nonce `f h`,
`get_nonce` returns `max(0, chain, *nonces)` over the full multiset of
resolved nonces (the pruned ones cannot affect the maximum). -/
theorem get_nonce_ok (w : WrappedManager) (kt : Known) (addr : Json) (chain : Int)
    (f : Json → Int)
    (hchain : get_chain_nonce w addr = .ok chain)
    (hres : ∀ h ∈ knownGet kt addr, txn_nonce_of w h = .ok (f h)) :
    (get_nonce w kt addr).1 =
      .ok (List.foldl max 0 (chain :: (knownGet kt addr).map f)) := by
  simp only [get_nonce, get_nonces_and_cleanup, hchain]
  rcases hl : get_nonces_and_cleanup_loop w addr chain (knownGet kt addr) kt with ⟨v, st⟩
  have hv : v = .ok ((knownGet kt addr).filterMap
      (fun h => if chain < f h then some (f h) else none)) := by
    have := cleanup_loop_ok w addr chain f (knownGet kt addr) kt hres
    rwa [hl] at this
  subst hv
  simp only [hl]
  rw [filterMap_if_gt, List.foldl_cons, List.foldl_cons,
    foldl_max_filter chain _ (max 0 chain) (le_max_right 0 chain)]

end BaseSendRawTransactionMixin

/-- C1: if the chain-reported pending count is `chain` and the tracked
hashes under `addr` resolve to the nonce multiset `map f`, then
`get_nonce addr` returns `max(0, chain, *nonces)`; in particular the
result is at least the chain nonce. -/
theorem C1_get_nonce_max (w : WrappedManager) (kt : Known) (addr : Json) (chain : Int)
    (f : Json → Int)
    (hchain : BaseSendRawTransactionMixin.get_chain_nonce w addr = .ok chain)
    (hres : ∀ h ∈ knownGet kt addr,
      BaseSendRawTransactionMixin.txn_nonce_of w h = .ok (f h)) :
    (BaseSendRawTransactionMixin.get_nonce w kt addr).1 =
        .ok (List.foldl max 0 (chain :: (knownGet kt addr).map f)) ∧
      chain ≤ List.foldl max 0 (chain :: (knownGet kt addr).map f) := by
  refine ⟨BaseSendRawTransactionMixin.get_nonce_ok w kt addr chain f hchain hres, ?_⟩
  rw [List.foldl_cons]
  exact le_trans (le_max_right 0 chain) (le_foldl_max _ _)

/-- Witness for C1: with chain nonce 5 and tracked hashes resolving to
the nonces 6 and 8, `get_nonce` returns 8, which is at least 5. -/
theorem C1_get_nonce_max_witness :
    (BaseSendRawTransactionMixin.get_nonce wChain5 ktC1 (Json.str "0xAA")).1 = .ok 8 ∧
      (5 : Int) ≤ 8 := by
  have h := C1_get_nonce_max wChain5 ktC1 (Json.str "0xAA") 5 fChain5 rfl ?hres
  case hres =>
    intro x hm
    have he : knownGet ktC1 (Json.str "0xAA") = [Json.str "0xh6", Json.str "0xh8"] := rfl
    rw [he] at hm
    simp only [List.mem_cons, List.not_mem_nil, or_false] at hm
    rcases hm with rfl | rfl <;> rfl
  refine ⟨?_, by norm_num⟩
  rw [h.1]
  rfl

theorem foldl_max_eq_or_mem (l : List Int) : ∀ a : Int,
    List.foldl max a l = a ∨ List.foldl max a l ∈ l := by
  induction l with
  | nil => intro a; exact Or.inl rfl
  | cons x xs ih =>
    intro a
    rw [List.foldl_cons]
    rcases ih (max a x) with h | h
    · rcases max_choice a x with hm | hm
      · exact Or.inl (by rw [h, hm])
      · exact Or.inr (by rw [h, hm]; exact List.mem_cons_self x xs)
    · exact Or.inr (List.mem_cons_of_mem x h)

/-- C2 counterexample: with chain nonce 5 and a single tracked
unconfirmed transaction of resolved nonce 8, `get_nonce` returns 8
itself — not strictly greater than the prior unconfirmed nonce 8, so
the next transaction would collide with the outstanding one. -/
theorem C2_counterexample :
    BaseSendRawTransactionMixin.get_chain_nonce wChain5 (Json.str "0xAA") = .ok 5 ∧
    BaseSendRawTransactionMixin.txn_nonce_of wChain5 (Json.str "0xh8") = .ok 8 ∧
    knownGet ktC2 (Json.str "0xAA") = [Json.str "0xh8"] ∧
    (5 : Int) < 8 ∧
    (BaseSendRawTransactionMixin.get_nonce wChain5 ktC2 (Json.str "0xAA")).1 = .ok 8 ∧
    ¬ (8 : Int) < 8 :=
  ⟨rfl, rfl, rfl, by norm_num, rfl, by norm_num⟩

/-- C2 (amended): when at least one tracked transaction under `addr` is
still unconfirmed, `get_nonce` returns a nonce that is greater than or
EQUAL to every prior unconfirmed nonce and is itself one of the resolved
nonces (the largest outstanding one), so it does not avoid collision
with that transaction. -/
theorem C2_get_nonce_ge_unconfirmed (w : WrappedManager) (kt : Known) (addr : Json)
    (chain : Int) (f : Json → Int)
    (hchain0 : 0 ≤ chain)
    (hchain : BaseSendRawTransactionMixin.get_chain_nonce w addr = .ok chain)
    (hres : ∀ h ∈ knownGet kt addr,
      BaseSendRawTransactionMixin.txn_nonce_of w h = .ok (f h))
    (hunconf : ∃ h ∈ knownGet kt addr, chain < f h) :
    ∃ n : Int, (BaseSendRawTransactionMixin.get_nonce w kt addr).1 = .ok n ∧
      (∀ h ∈ knownGet kt addr, f h ≤ n) ∧
      ∃ h0 ∈ knownGet kt addr, f h0 = n := by
  refine ⟨List.foldl max 0 (chain :: (knownGet kt addr).map f),
    BaseSendRawTransactionMixin.get_nonce_ok w kt addr chain f hchain hres, ?_, ?_⟩
  · intro h hm
    exact mem_le_foldl_max _ 0 _ (List.mem_cons_of_mem _ (List.mem_map_of_mem f hm))
  · obtain ⟨hstar, hsm, hlt⟩ := hunconf
    rw [List.foldl_cons]
    rcases foldl_max_eq_or_mem ((knownGet kt addr).map f) (max 0 chain) with h | h
    · exfalso
      have h1 : f hstar ≤ List.foldl max (max 0 chain) ((knownGet kt addr).map f) :=
        le_trans (le_refl _) (mem_le_foldl_max _ _ _ (List.mem_map_of_mem f hsm))
      rw [h, max_eq_right hchain0] at h1
      exact absurd hlt (not_lt.mpr h1)
    · obtain ⟨h0, hh0, hfh0⟩ := List.mem_map.mp h
      exact ⟨h0, hh0, hfh0⟩

/-- Witness for the amended C2: chain nonce 5, one unconfirmed nonce 8;
the returned nonce 8 satisfies 8 ≤ 8 and equals the resolved nonce of
the tracked hash. -/
theorem C2_get_nonce_ge_unconfirmed_witness :
    ∃ n : Int, (BaseSendRawTransactionMixin.get_nonce wChain5 ktC2 (Json.str "0xAA")).1 =
        .ok n ∧
      (∀ h ∈ knownGet ktC2 (Json.str "0xAA"), fChain5 h ≤ n) ∧
      ∃ h0 ∈ knownGet ktC2 (Json.str "0xAA"), fChain5 h0 = n := by
  refine C2_get_nonce_ge_unconfirmed wChain5 ktC2 (Json.str "0xAA") 5 fChain5
    (by norm_num) rfl ?hres ?hunconf
  case hres =>
    intro x hm
    have he : knownGet ktC2 (Json.str "0xAA") = [Json.str "0xh8"] := rfl
    rw [he] at hm
    simp only [List.mem_cons, List.not_mem_nil, or_false] at hm
    subst hm
    rfl
  case hunconf =>
    refine ⟨Json.str "0xh8", ?_, by rw [show fChain5 (Json.str "0xh8") = 8 from rfl]; norm_num⟩
    have he : knownGet ktC2 (Json.str "0xAA") = [Json.str "0xh8"] := rfl
    rw [he]
    exact List.mem_cons_self _ _

/-- C5: immediately after `get_nonce addr` returns, the tracked set for
`addr` contains no hash whose resolved nonce is at most the chain nonce
observed in that same call. -/
theorem C5_get_nonce_prunes (w : WrappedManager) (kt : Known) (addr : Json)
    (chain : Int) (f : Json → Int)
    (hchain : BaseSendRawTransactionMixin.get_chain_nonce w addr = .ok chain)
    (hres : ∀ h ∈ knownGet kt addr,
      BaseSendRawTransactionMixin.txn_nonce_of w h = .ok (f h)) :
    ∀ x ∈ knownGet (BaseSendRawTransactionMixin.get_nonce w kt addr).2 addr,
      chain < f x := by
  intro x hx
  simp only [BaseSendRawTransactionMixin.get_nonce,
    BaseSendRawTransactionMixin.get_nonces_and_cleanup, hchain] at hx
  rcases hl : BaseSendRawTransactionMixin.get_nonces_and_cleanup_loop w addr chain
      (knownGet kt addr) kt with ⟨v, st⟩
  simp only [hl] at hx
  refine BaseSendRawTransactionMixin.cleanup_loop_mem_gt w addr chain f
    (knownGet kt addr) kt hres (fun y hy _ => hy) x ?_
  rw [hl]
  cases v <;> simpa using hx

/-- Witness for C5: chain nonce 5 with tracked nonces 3 and 8; after the
call only the nonce-8 hash remains, and every remaining hash resolves
above 5. -/
theorem C5_get_nonce_prunes_witness :
    (∀ x ∈ knownGet (BaseSendRawTransactionMixin.get_nonce wChain5 ktC5
        (Json.str "0xAA")).2 (Json.str "0xAA"), (5 : Int) < fChain5 x) ∧
    knownGet (BaseSendRawTransactionMixin.get_nonce wChain5 ktC5
        (Json.str "0xAA")).2 (Json.str "0xAA") = [Json.str "0xh8"] := by
  refine ⟨C5_get_nonce_prunes wChain5 ktC5 (Json.str "0xAA") 5 fChain5 rfl ?hres, rfl⟩
  case hres =>
    intro x hm
    have he : knownGet ktC5 (Json.str "0xAA") = [Json.str "0xh3", Json.str "0xh8"] := rfl
    rw [he] at hm
    simp only [List.mem_cons, List.not_mem_nil, or_false] at hm
    rcases hm with rfl | rfl <;> rfl

/-!  ## Claims about the request manager (C3, C4, C7, C10)  -/

/-- A provider answering every request with a body whose single field
`result` holds the number 42. -/
def pC4 : Provider where
  make_request := fun _ _ => "\x7b\"result\": 42\x7d"

/-- A provider answering every request with a body whose single field
`result` holds the hex string `0x2a`. -/
def pC3 : Provider where
  make_request := fun _ _ => "\x7b\"result\": \"0x2a\"\x7d"

/-- C4: for a provider response that decodes to a JSON object,
`request_blocking` fails with `ValueError` (RPCError) carrying the
`error` payload exactly when an `error` key is present, and returns the
`result` field when no `error` key is present. -/
theorem C4_request_blocking_envelope (p : Provider) (method : String) (params : List Json)
    (fields : JsonFields)
    (hdec : jsonLoads (force_text (p.make_request method params)) = some (.obj fields)) :
    (∀ e, fields.lookup "error" = some e →
        RequestManager.request_blocking p method params = .error (.valueError e)) ∧
    (fields.lookup "error" = none →
      ∀ v, fields.lookup "result" = some v →
        RequestManager.request_blocking p method params = .ok v) ∧
    ((∃ e, RequestManager.request_blocking p method params = .error (.valueError e)) ↔
      (fields.lookup "error").isSome = true) := by
  have hcore : RequestManager.request_blocking p method params =
      (match pyContains (Json.obj fields) "error" with
      | .error e => .error e
      | .ok true =>
        (match pyGetItem (Json.obj fields) "error" with
        | .ok payload => .error (.valueError payload)
        | .error e => .error e)
      | .ok false => pyGetItem (Json.obj fields) "result") := by
    simp only [RequestManager.request_blocking, hdec]
  have hp1 : ∀ e, fields.lookup "error" = some e →
      RequestManager.request_blocking p method params = .error (.valueError e) := by
    intro e he
    rw [hcore]
    simp [pyContains, JsonFields.hasKey, he, pyGetItem]
  have hp2 : fields.lookup "error" = none →
      ∀ v, fields.lookup "result" = some v →
        RequestManager.request_blocking p method params = .ok v := by
    intro hn v hv
    rw [hcore]
    simp [pyContains, JsonFields.hasKey, hn, pyGetItem, hv]
  refine ⟨hp1, hp2, ⟨?_, ?_⟩⟩
  · rintro ⟨e, hre⟩
    cases hk : fields.lookup "error" with
    | some _ => simp
    | none =>
      exfalso
      rw [hcore] at hre
      simp only [pyContains, JsonFields.hasKey, hk, Option.isSome_none] at hre
      cases hr : fields.lookup "result" with
      | some v => simp [pyGetItem, hr] at hre
      | none => simp [pyGetItem, hr] at hre
  · intro hsome
    cases hk : fields.lookup "error" with
    | none => rw [hk] at hsome; simp at hsome
    | some e => exact ⟨e, hp1 e hk⟩

/-- Witness for C4: a body with only a `result` field of 42 makes
`request_blocking` return 42. -/
theorem C4_request_blocking_envelope_witness :
    RequestManager.request_blocking pC4 "eth_gasPrice" [] = .ok (.num 42) := by
  have h := C4_request_blocking_envelope pC4 "eth_gasPrice" []
    (.cons "result" (.num 42) .nil) rfl
  exact h.2.1 rfl (.num 42) rfl

/-- C3 (code-bug evidence): the provider's raw response decodes to a
`result` of the string `0x2a`, so `request_blocking` — and hence the
task spawned by `request_async` — completes with that already decoded
string; `receive_blocking` then runs `json.loads` over the decoded
value a second time, fails with a decode error, and never applies the
claimed envelope decoding to the raw bytes. -/
theorem C3_receive_double_decode :
    RequestManager.request_blocking pC3 "eth_coinbase" [] = .ok (.str "0x2a") ∧
    RequestManager.receive_blocking
        [(1, RequestManager.request_blocking pC3 "eth_coinbase" [])] 1 false =
      (.error .jsonDecodeError, []) :=
  ⟨rfl, rfl⟩

/-- The second component of `receive_blocking` on a present id is always
the table with that id popped, whatever the task or timeout did. -/
theorem RequestManager.receive_blocking_snd {pending : RequestManager.Pending}
    {request_id : Nat} {task : Except PyError Json} (b : Bool)
    (h : alookup request_id pending = some task) :
    (RequestManager.receive_blocking pending request_id b).2 =
      RequestManager.pendingErase pending request_id := by
  simp only [RequestManager.receive_blocking, h]
  cases b
  · cases task with
    | error e => rfl
    | ok raw =>
      cases hj : pyJsonLoads raw with
      | error e => simp [hj]
      | ok response =>
        cases hc : pyContains response "error" with
        | error e => simp [hj, hc]
        | ok bb =>
          cases bb
          · simp [hj, hc]
          · cases hg : pyGetItem response "error" with
            | ok payload => simp [hj, hc, hg]
            | error e => simp [hj, hc, hg]
  · rfl

/-- C7: retrieval is single-consumer and destructive: a first
`receive_blocking` on a present id pops the entry, a second call on the
same id fails with `KeyError` (NotFoundError), and an id that was never
issued fails with `KeyError` as well. -/
theorem C7_receive_destructive (pending : RequestManager.Pending) (request_id : Nat)
    (b b2 : Bool) :
    (alookup request_id pending = none →
      RequestManager.receive_blocking pending request_id b =
        (.error (.keyError ("Request for id:" ++ toString request_id ++ " not found")),
          pending)) ∧
    (∀ task : Except PyError Json, alookup request_id pending = some task →
      alookup request_id (RequestManager.receive_blocking pending request_id b).2 = none ∧
      RequestManager.receive_blocking
          (RequestManager.receive_blocking pending request_id b).2 request_id b2 =
        (.error (.keyError ("Request for id:" ++ toString request_id ++ " not found")),
          (RequestManager.receive_blocking pending request_id b).2)) := by
  constructor
  · intro h
    simp only [RequestManager.receive_blocking, h]
  · intro task h
    have hsnd := RequestManager.receive_blocking_snd b h
    have hnone : alookup request_id
        (RequestManager.receive_blocking pending request_id b).2 = none := by
      rw [hsnd]
      exact alookup_filter_self pending request_id
    refine ⟨hnone, ?_⟩
    rw [hsnd]
    have hnone2 : alookup request_id (RequestManager.pendingErase pending request_id) =
        none := alookup_filter_self pending request_id
    simp only [RequestManager.receive_blocking, hnone2]

/-- Witness for C7: a table holding id 7; the first retrieval empties
it and the second fails with the not-found `KeyError`. -/
theorem C7_receive_destructive_witness :
    alookup 7 (RequestManager.receive_blocking
        [((7 : Nat), (.ok (.str "0x1") : Except PyError Json))] 7 false).2 = none ∧
    RequestManager.receive_blocking (RequestManager.receive_blocking
        [((7 : Nat), (.ok (.str "0x1") : Except PyError Json))] 7 false).2 7 false =
      (.error (.keyError ("Request for id:" ++ toString (7 : Nat) ++ " not found")),
        (RequestManager.receive_blocking
          [((7 : Nat), (.ok (.str "0x1") : Except PyError Json))] 7 false).2) :=
  (C7_receive_destructive [((7 : Nat), (.ok (.str "0x1") : Except PyError Json))]
    7 false false).2 (.ok (.str "0x1")) rfl

/-- C10: the pop precedes the wait, so when the wait times out (or any
error is raised after the pop) the entry is already gone: the completed
task's value `task` is still recorded in the popped entry, yet every
later `receive_blocking` on the same id fails with the not-found
`KeyError`. -/
theorem C10_timeout_unretrievable (pending : RequestManager.Pending) (request_id : Nat)
    (task : Except PyError Json)
    (h : alookup request_id pending = some task) :
    RequestManager.receive_blocking pending request_id true =
      (.error .timeoutError, RequestManager.pendingErase pending request_id) ∧
    ∀ b : Bool, RequestManager.receive_blocking
        (RequestManager.pendingErase pending request_id) request_id b =
      (.error (.keyError ("Request for id:" ++ toString request_id ++ " not found")),
        RequestManager.pendingErase pending request_id) := by
  constructor
  · simp only [RequestManager.receive_blocking, h]
    rfl
  · intro b
    have hnone : alookup request_id (RequestManager.pendingErase pending request_id) =
        none := alookup_filter_self pending request_id
    simp only [RequestManager.receive_blocking, hnone]

/-- Witness for C10: a table holding the completed task of id 3; the
timed-out retrieval removes the entry and a retry fails not-found. -/
theorem C10_timeout_unretrievable_witness :
    RequestManager.receive_blocking
        [((3 : Nat), (.ok (.num 1) : Except PyError Json))] 3 true =
      (.error .timeoutError, RequestManager.pendingErase
        [((3 : Nat), (.ok (.num 1) : Except PyError Json))] 3) ∧
    RequestManager.receive_blocking (RequestManager.pendingErase
        [((3 : Nat), (.ok (.num 1) : Except PyError Json))] 3) 3 false =
      (.error (.keyError ("Request for id:" ++ toString (3 : Nat) ++ " not found")),
        RequestManager.pendingErase
          [((3 : Nat), (.ok (.num 1) : Except PyError Json))] 3) := by
  have h := C10_timeout_unretrievable
    [((3 : Nat), (.ok (.num 1) : Except PyError Json))] 3 (.ok (.num 1)) rfl
  exact ⟨h.1, h.2 false⟩

/-!  ## C8: construct_full_transaction  -/

theorem JsonFields.lookup_push_ne :
    ∀ {d : JsonFields} {k k' : String} {v : Json}, ¬ k' = k →
      (d.push k v).lookup k' = d.lookup k'
  | .nil, k, k', v, h => by
    simp only [JsonFields.push, JsonFields.lookup]
    rw [show (k == k') = false from beq_eq_false_iff_ne.mpr (fun hc => h hc.symm)]
    simp
  | .cons key val tl, k, k', v, h => by
    simp only [JsonFields.push, JsonFields.lookup]
    by_cases hk : (key == k') = true
    · simp [hk]
    · have hkf : (key == k') = false := by simpa using hk
      rw [hkf]
      simp only [Bool.false_eq_true, if_false]
      exact JsonFields.lookup_push_ne h

theorem JsonFields.lookup_setdefault_ne {d : JsonFields} {k k' : String} {v : Json}
    (h : ¬ k' = k) : (d.setdefault k v).lookup k' = d.lookup k' := by
  unfold JsonFields.setdefault
  by_cases hk : d.hasKey k = true
  · rw [if_pos hk]
  · rw [if_neg hk]
    exact JsonFields.lookup_push_ne h

/-- The base transaction record of the C8 witness: a `from` address and
a caller-supplied `value`. -/
def baseC8 : JsonFields := .cons "from" (.str "0xAA") (.cons "value" (.str "0x7") .nil)

/-- C8: for a base record containing a `from` field,
`construct_full_transaction` returns a copy in which every field already
present is unchanged and each missing field is filled with its default
(`nonce` from `get_nonce`, `gasPrice` from `eth_gasPrice`, `gas` =
`hex(90000)` = `0x15f90`, `value` = `0x0`, `to` and `data` empty), and
all seven fields are present afterwards. -/
theorem C8_construct_full_transaction (w : WrappedManager) (kt : Known)
    (base : JsonFields) (txn_from : Json) (nonce : Int) (kt1 : Known) (gas_price : Json)
    (hfrom : base.lookup "from" = some txn_from)
    (hnonce : BaseSendRawTransactionMixin.get_nonce w kt txn_from = (.ok nonce, kt1))
    (hgp : w.request_blocking "eth_gasPrice" [] = .ok gas_price) :
    ∃ full : JsonFields,
      BaseSendRawTransactionMixin.construct_full_transaction w kt base = (.ok full, kt1) ∧
      (∀ k v, base.lookup k = some v → full.lookup k = some v) ∧
      (base.lookup "nonce" = none → full.lookup "nonce" = some (.num nonce)) ∧
      (base.lookup "gasPrice" = none → full.lookup "gasPrice" = some gas_price) ∧
      (base.lookup "gas" = none → full.lookup "gas" = some (.str (pyHex 90000))) ∧
      (base.lookup "value" = none → full.lookup "value" = some (.str "0x0")) ∧
      (base.lookup "to" = none → full.lookup "to" = some (.str "")) ∧
      (base.lookup "data" = none → full.lookup "data" = some (.str "")) ∧
      (∀ k, k ∈ ["from", "to", "value", "data", "gas", "gasPrice", "nonce"] →
        (full.lookup k).isSome = true) ∧
      pyHex 90000 = "0x15f90" := by
  refine ⟨(((((base.setdefault "nonce" (.num nonce)).setdefault "gasPrice"
      gas_price).setdefault "gas" (.str (pyHex 90000))).setdefault "value"
      (.str "0x0")).setdefault "to" (.str "")).setdefault "data" (.str ""),
    ?_, ?_, ?_, ?_, ?_, ?_, ?_, ?_, ?_, rfl⟩
  · simp only [BaseSendRawTransactionMixin.construct_full_transaction, hfrom, hnonce, hgp]
  · intro k v hv
    exact JsonFields.lookup_setdefault_of_some (JsonFields.lookup_setdefault_of_some
      (JsonFields.lookup_setdefault_of_some (JsonFields.lookup_setdefault_of_some
        (JsonFields.lookup_setdefault_of_some (JsonFields.lookup_setdefault_of_some hv)))))
  · intro hmiss
    exact JsonFields.lookup_setdefault_of_some (JsonFields.lookup_setdefault_of_some
      (JsonFields.lookup_setdefault_of_some (JsonFields.lookup_setdefault_of_some
        (JsonFields.lookup_setdefault_of_some (JsonFields.lookup_setdefault_of_none hmiss)))))
  · intro hmiss
    have h1 : (base.setdefault "nonce" (.num nonce)).lookup "gasPrice" = none := by
      rw [JsonFields.lookup_setdefault_ne (by decide)]; exact hmiss
    exact JsonFields.lookup_setdefault_of_some (JsonFields.lookup_setdefault_of_some
      (JsonFields.lookup_setdefault_of_some (JsonFields.lookup_setdefault_of_some
        (JsonFields.lookup_setdefault_of_none h1))))
  · intro hmiss
    have h1 : (base.setdefault "nonce" (.num nonce)).lookup "gas" = none := by
      rw [JsonFields.lookup_setdefault_ne (by decide)]; exact hmiss
    have h2 : ((base.setdefault "nonce" (.num nonce)).setdefault "gasPrice"
        gas_price).lookup "gas" = none := by
      rw [JsonFields.lookup_setdefault_ne (by decide)]; exact h1
    exact JsonFields.lookup_setdefault_of_some (JsonFields.lookup_setdefault_of_some
      (JsonFields.lookup_setdefault_of_some (JsonFields.lookup_setdefault_of_none h2)))
  · intro hmiss
    have h1 : (base.setdefault "nonce" (.num nonce)).lookup "value" = none := by
      rw [JsonFields.lookup_setdefault_ne (by decide)]; exact hmiss
    have h2 : ((base.setdefault "nonce" (.num nonce)).setdefault "gasPrice"
        gas_price).lookup "value" = none := by
      rw [JsonFields.lookup_setdefault_ne (by decide)]; exact h1
    have h3 : (((base.setdefault "nonce" (.num nonce)).setdefault "gasPrice"
        gas_price).setdefault "gas" (.str (pyHex 90000))).lookup "value" = none := by
      rw [JsonFields.lookup_setdefault_ne (by decide)]; exact h2
    exact JsonFields.lookup_setdefault_of_some (JsonFields.lookup_setdefault_of_some
      (JsonFields.lookup_setdefault_of_none h3))
  · intro hmiss
    have h1 : (base.setdefault "nonce" (.num nonce)).lookup "to" = none := by
      rw [JsonFields.lookup_setdefault_ne (by decide)]; exact hmiss
    have h2 : ((base.setdefault "nonce" (.num nonce)).setdefault "gasPrice"
        gas_price).lookup "to" = none := by
      rw [JsonFields.lookup_setdefault_ne (by decide)]; exact h1
    have h3 : (((base.setdefault "nonce" (.num nonce)).setdefault "gasPrice"
        gas_price).setdefault "gas" (.str (pyHex 90000))).lookup "to" = none := by
      rw [JsonFields.lookup_setdefault_ne (by decide)]; exact h2
    have h4 : ((((base.setdefault "nonce" (.num nonce)).setdefault "gasPrice"
        gas_price).setdefault "gas" (.str (pyHex 90000))).setdefault "value"
        (.str "0x0")).lookup "to" = none := by
      rw [JsonFields.lookup_setdefault_ne (by decide)]; exact h3
    exact JsonFields.lookup_setdefault_of_some (JsonFields.lookup_setdefault_of_none h4)
  · intro hmiss
    have h1 : (base.setdefault "nonce" (.num nonce)).lookup "data" = none := by
      rw [JsonFields.lookup_setdefault_ne (by decide)]; exact hmiss
    have h2 : ((base.setdefault "nonce" (.num nonce)).setdefault "gasPrice"
        gas_price).lookup "data" = none := by
      rw [JsonFields.lookup_setdefault_ne (by decide)]; exact h1
    have h3 : (((base.setdefault "nonce" (.num nonce)).setdefault "gasPrice"
        gas_price).setdefault "gas" (.str (pyHex 90000))).lookup "data" = none := by
      rw [JsonFields.lookup_setdefault_ne (by decide)]; exact h2
    have h4 : ((((base.setdefault "nonce" (.num nonce)).setdefault "gasPrice"
        gas_price).setdefault "gas" (.str (pyHex 90000))).setdefault "value"
        (.str "0x0")).lookup "data" = none := by
      rw [JsonFields.lookup_setdefault_ne (by decide)]; exact h3
    have h5 : (((((base.setdefault "nonce" (.num nonce)).setdefault "gasPrice"
        gas_price).setdefault "gas" (.str (pyHex 90000))).setdefault "value"
        (.str "0x0")).setdefault "to" (.str "")).lookup "data" = none := by
      rw [JsonFields.lookup_setdefault_ne (by decide)]; exact h4
    exact JsonFields.lookup_setdefault_of_none h5
  · intro k hk
    simp only [List.mem_cons, List.not_mem_nil, or_false] at hk
    rcases hk with rfl | rfl | rfl | rfl | rfl | rfl | rfl
    · have h0 : (base.lookup "from").isSome = true := by rw [hfrom]; rfl
      exact JsonFields.lookup_setdefault_isSome _ _ (JsonFields.lookup_setdefault_isSome _ _
        (JsonFields.lookup_setdefault_isSome _ _ (JsonFields.lookup_setdefault_isSome _ _
          (JsonFields.lookup_setdefault_isSome _ _
            (JsonFields.lookup_setdefault_isSome _ _ h0)))))
    · exact JsonFields.lookup_setdefault_isSome _ _
        (JsonFields.lookup_setdefault_isSome_self _ "to" _)
    · exact JsonFields.lookup_setdefault_isSome _ _ (JsonFields.lookup_setdefault_isSome _ _
        (JsonFields.lookup_setdefault_isSome_self _ "value" _))
    · exact JsonFields.lookup_setdefault_isSome_self _ "data" _
    · exact JsonFields.lookup_setdefault_isSome _ _ (JsonFields.lookup_setdefault_isSome _ _
        (JsonFields.lookup_setdefault_isSome _ _
          (JsonFields.lookup_setdefault_isSome_self _ "gas" _)))
    · exact JsonFields.lookup_setdefault_isSome _ _ (JsonFields.lookup_setdefault_isSome _ _
        (JsonFields.lookup_setdefault_isSome _ _ (JsonFields.lookup_setdefault_isSome _ _
          (JsonFields.lookup_setdefault_isSome_self _ "gasPrice" _))))
    · exact JsonFields.lookup_setdefault_isSome _ _ (JsonFields.lookup_setdefault_isSome _ _
        (JsonFields.lookup_setdefault_isSome _ _ (JsonFields.lookup_setdefault_isSome _ _
          (JsonFields.lookup_setdefault_isSome _ _
            (JsonFields.lookup_setdefault_isSome_self _ "nonce" _)))))

/-- Witness for C8: a base record with `from` and a caller-supplied
`value`; the result keeps `value` untouched, fills the defaults, and has
all seven fields. -/
theorem C8_construct_full_transaction_witness :
    ∃ full : JsonFields,
      BaseSendRawTransactionMixin.construct_full_transaction wChain5 [] baseC8 =
        (.ok full, []) ∧
      full.lookup "value" = some (.str "0x7") ∧
      full.lookup "gas" = some (.str "0x15f90") ∧
      full.lookup "nonce" = some (.num 5) ∧
      (∀ k, k ∈ ["from", "to", "value", "data", "gas", "gasPrice", "nonce"] →
        (full.lookup k).isSome = true) := by
  obtain ⟨full, hc, hpres, hn, hgp2, hgas, hval, hto, hdata, hall, hhex⟩ :=
    C8_construct_full_transaction wChain5 [] baseC8 (.str "0xAA") 5 [] (.str "0x1")
      rfl rfl rfl
  refine ⟨full, hc, hpres "value" _ rfl, ?_, hn rfl, hall⟩
  rw [hgas rfl, hhex]

/-!  ## C6 and C9: the intercepting request_blocking override  -/

/-- C6: an `eth_sendTransaction` call is never forwarded as-is — it is
rewritten into an `eth_sendRawTransaction` self-dispatch carrying the
hex-encoded signed serialization of the constructed full transaction,
whose own result is returned; and every forwarded call whose method is
one of the four transaction-sending methods has its resulting hash
looked up via `eth_getTransactionByHash` and recorded under the `from`
address that lookup reports. -/
theorem C6_interception_and_tracking (w : WrappedManager) (kt : Known) (fuel : Nat) :
    (∀ (base : JsonFields) (rest : List Json) (full : JsonFields) (kt1 : Known),
      BaseSendRawTransactionMixin.construct_full_transaction w kt base = (.ok full, kt1) →
      BaseSendRawTransactionMixin.request_blocking w (fuel + 1) "eth_sendTransaction"
          (Json.obj base :: rest) kt =
        BaseSendRawTransactionMixin.request_blocking w fuel "eth_sendRawTransaction"
          [.str (encode_hex (w.sign_and_serialize_transaction full))] kt1) ∧
    (∀ (method : String) (params : List Json) (txn_hash txn txn_from : Json),
      method ≠ "eth_sendTransaction" →
      method ∈ BaseSendRawTransactionMixin.TXN_SENDING_METHODS →
      w.request_blocking method params = .ok txn_hash →
      w.request_blocking "eth_getTransactionByHash" [txn_hash] = .ok txn →
      pyGetItem txn "from" = .ok txn_from →
      BaseSendRawTransactionMixin.request_blocking w (fuel + 2) method params kt =
        (.ok txn_hash, knownAdd kt txn_from txn_hash)) := by
  constructor
  · intro base rest full kt1 hcons
    simp only [BaseSendRawTransactionMixin.request_blocking, hcons]
    simp
  · intro method params txn_hash txn txn_from hne hmem hfw hlook hfrom
    have hne1 : (method == "eth_sendTransaction") = false := beq_eq_false_iff_ne.mpr hne
    have hcont : BaseSendRawTransactionMixin.TXN_SENDING_METHODS.contains method = true :=
      List.elem_iff.mpr hmem
    have hnm : "eth_getTransactionByHash" ∉
        BaseSendRawTransactionMixin.TXN_SENDING_METHODS := by decide
    simp only [BaseSendRawTransactionMixin.request_blocking, hne1, hfw, hcont, hlook,
      hfrom]
    simp [hnm, hfrom]

/-- Witness for C6: a forwarded `eth_sendRawTransaction` whose hash
resolves to the sender `0xAA` is recorded under that address. -/
theorem C6_interception_and_tracking_witness :
    BaseSendRawTransactionMixin.request_blocking wChain5 3 "eth_sendRawTransaction"
        [.str "0xraw"] [] =
      (.ok (.str "0xhash"), knownAdd [] (.str "0xAA") (.str "0xhash")) :=
  (C6_interception_and_tracking wChain5 [] 1).2 "eth_sendRawTransaction" [.str "0xraw"]
    (.str "0xhash")
    (.obj (.cons "from" (.str "0xAA") (.cons "nonce" (.str "0x8") .nil)))
    (.str "0xAA") (by decide) (by decide) rfl rfl rfl

/-- Every state reachable from `construct_full_transaction` only prunes
tracked hashes (through the eager `get_nonce` call); nothing is added. -/
theorem construct_full_transaction_subset (w : WrappedManager) (kt : Known)
    (base : JsonFields) :
    ∀ (a x : Json), x ∈ knownGet
        (BaseSendRawTransactionMixin.construct_full_transaction w kt base).2 a →
      x ∈ knownGet kt a := by
  intro a x hx
  simp only [BaseSendRawTransactionMixin.construct_full_transaction] at hx
  cases hf : JsonFields.lookup "from" base with
  | none => simp only [hf] at hx; exact hx
  | some txn_from =>
    simp only [hf] at hx
    rcases hn : BaseSendRawTransactionMixin.get_nonce w kt txn_from with ⟨v, st⟩
    simp only [hn] at hx
    cases v with
    | error e =>
      refine BaseSendRawTransactionMixin.get_nonce_subset w kt txn_from a x ?_
      rw [hn]
      exact hx
    | ok nonce =>
      cases hg : w.request_blocking "eth_gasPrice" [] with
      | error e =>
        simp only [hg] at hx
        refine BaseSendRawTransactionMixin.get_nonce_subset w kt txn_from a x ?_
        rw [hn]
        exact hx
      | ok gp =>
        simp only [hg] at hx
        refine BaseSendRawTransactionMixin.get_nonce_subset w kt txn_from a x ?_
        rw [hn]
        exact hx

/-- C9 counterexample: a tracked hash of nonce 3 (confirmed, chain
nonce 5) and a broadcast that always fails: the failing
`eth_sendTransaction` call still changes `KnownTransactions` — the
sender's tracked set is pruned from one hash to empty — so the map is
not left exactly as it was before the call. -/
theorem C9_counterexample :
    (BaseSendRawTransactionMixin.request_blocking wFail 3 "eth_sendTransaction"
        [.obj (.cons "from" (.str "0xAA") .nil)] ktC9).1 =
      .error (.valueError (.str "boom")) ∧
    knownGet ktC9 (.str "0xAA") = [.str "0xh3"] ∧
    knownGet (BaseSendRawTransactionMixin.request_blocking wFail 3 "eth_sendTransaction"
        [.obj (.cons "from" (.str "0xAA") .nil)] ktC9).2 (.str "0xAA") = [] :=
  ⟨rfl, rfl, rfl⟩

/-- C9 (amended): when the raw broadcast fails after signing, the
`eth_sendTransaction` call propagates the failure and the new
transaction hash is recorded nowhere — but `KnownTransactions` is not
necessarily identical to its pre-call state: it is the state left by the
`get_nonce` pruning run during construction, every tracked set of which
is a subset of the corresponding original one. -/
theorem C9_broadcast_failure (w : WrappedManager) (kt : Known) (fuel : Nat)
    (base : JsonFields) (rest : List Json) (full : JsonFields) (kt1 : Known) (e : PyError)
    (hcons : BaseSendRawTransactionMixin.construct_full_transaction w kt base =
      (.ok full, kt1))
    (hfail : ∀ ps : List Json, w.request_blocking "eth_sendRawTransaction" ps =
      .error e) :
    BaseSendRawTransactionMixin.request_blocking w (fuel + 2) "eth_sendTransaction"
        (Json.obj base :: rest) kt = (.error e, kt1) ∧
    ∀ (a x : Json), x ∈ knownGet kt1 a → x ∈ knownGet kt a := by
  constructor
  · simp only [BaseSendRawTransactionMixin.request_blocking, hcons, hfail]
    simp
  · intro a x hx
    have hk : kt1 = (BaseSendRawTransactionMixin.construct_full_transaction w kt base).2 := by
      rw [hcons]
    rw [hk] at hx
    exact construct_full_transaction_subset w kt base a x hx

/-- The full transaction constructed by the C9 witness. -/
def fullC9 : JsonFields :=
  .cons "from" (.str "0xAA") (.cons "nonce" (.num 5) (.cons "gasPrice" (.str "0x1")
    (.cons "gas" (.str "0x15f90") (.cons "value" (.str "0x0") (.cons "to" (.str "")
      (.cons "data" (.str "") .nil))))))

/-- Witness for the amended C9 at the concrete failing broadcast. -/
theorem C9_broadcast_failure_witness :
    BaseSendRawTransactionMixin.request_blocking wFail 3 "eth_sendTransaction"
        [.obj (.cons "from" (.str "0xAA") .nil)] ktC9 =
      (.error (.valueError (.str "boom")), [((.str "0xAA" : Json), ([] : List Json))]) ∧
    ∀ (a x : Json), x ∈ knownGet [((.str "0xAA" : Json), ([] : List Json))] a →
      x ∈ knownGet ktC9 a :=
  C9_broadcast_failure wFail ktC9 1 (.cons "from" (.str "0xAA") .nil) [] fullC9
    [((.str "0xAA" : Json), ([] : List Json))] (.valueError (.str "boom"))
    rfl (fun _ => rfl)

end Web3M
